import Mathlib

/-!
Verification of `streamlit_app.py` from the youtube-video-transcript
repository.

Python strings are modelled as `List Char` (sequences of code points) with
`String` wrappers at the API boundary.  The Python standard-library
functions `urllib.parse.urlparse` / `parse_qs` used by `extract_video_id`
are modelled below at the level of the documented CPython algorithm
(scheme / netloc / fragment / query / params splitting, WHATWG control
stripping, `unquote_plus` decoding of `%XX` escapes taken per byte, which
is exact for ASCII).  The external transcript service and the filesystem
are modelled as explicit parameters / state.
-/

/-- Prefix test on character lists (Python `str.startswith`). -/
def startsWithChars (pre s : List Char) : Bool :=
  match pre, s with
  | [], _ => true
  | _ :: _, [] => false
  | p :: ps, c :: cs => p == c && startsWithChars ps cs

/-- Substring containment on character lists, modelling the Python infix
operator `in` on strings. -/
def containsSub (needle : List Char) (s : List Char) : Bool :=
  match s with
  | [] => startsWithChars needle []
  | _ :: rest => startsWithChars needle s || containsSub needle rest

/-- Split at the first occurrence of `ch`, modelling Python
`s.split(ch, 1)`: when `ch` is absent the whole string is the first
component and the second component is empty (as in CPython's
`if ch in url: url, rest = url.split(ch, 1)` idiom). -/
def splitFirst (ch : Char) (u : List Char) : List Char × List Char :=
  let pre := u.takeWhile (fun c => c != ch)
  if pre.length = u.length then (u, []) else (pre, u.drop (pre.length + 1))

/-- WHATWG C0-control-or-space test used by CPython `urlsplit`. -/
def isC0OrSpace (c : Char) : Bool := c.val ≤ 32

/-- CPython `urlsplit` input sanitisation: strip leading C0 controls and
spaces (`lstrip`), then remove every tab, CR and LF. -/
def pyUrlClean (u : List Char) : List Char :=
  (u.dropWhile isC0OrSpace).filter (fun c => !(c == '\t' || c == '\r' || c == '\n'))

/-- Characters allowed in a URL scheme (CPython `scheme_chars`). -/
def isSchemeChar (c : Char) : Bool :=
  c.isAlpha || c.isDigit || c == '+' || c == '-' || c == '.'

/-- Split off the scheme, as CPython `urlsplit` does: the part before the
first `:` is a scheme when it is nonempty, starts with an ASCII letter and
consists of scheme characters only; the scheme is lowercased. -/
def splitScheme (u : List Char) : List Char × List Char :=
  let pre := u.takeWhile (fun c => c != ':')
  if pre.length = u.length then ([], u)
  else
    match pre.head? with
    | some c =>
      if c.isAlpha && pre.all isSchemeChar then
        (pre.map Char.toLower, u.drop (pre.length + 1))
      else ([], u)
    | none => ([], u)

/-- Split off the network location after a leading `//`: everything up to
the first `/`, `?` or `#` (CPython `_splitnetloc`). -/
def splitNetloc (u : List Char) : List Char × List Char :=
  let nl := u.takeWhile (fun c => !(c == '/' || c == '?' || c == '#'))
  (nl, u.drop nl.length)

/-- CPython `_splitparams`: split `;params` off the last path segment. -/
def splitParams (u : List Char) : List Char × List Char :=
  let lastSeg := (u.reverse.takeWhile (fun c => c != '/')).reverse
  if lastSeg.contains ';' then
    let pre := lastSeg.takeWhile (fun c => c != ';')
    (u.take (u.length - lastSeg.length) ++ pre,
     lastSeg.drop (pre.length + 1))
  else (u, [])

/-- Result of `urllib.parse.urlparse`. -/
structure ParseResult where
  scheme : List Char
  netloc : List Char
  path : List Char
  params : List Char
  query : List Char
  fragment : List Char
deriving DecidableEq

/-- Model of `urllib.parse.urlparse` (scheme, `//netloc`, `#fragment`,
`?query`, `;params` splitting, in CPython's order).  The `[`/`]` IPv6
bracket validation is omitted: in the source it could only turn one
`ValueError` into another. -/
def urlparse (url : List Char) : ParseResult :=
  let u0 := pyUrlClean url
  let su := splitScheme u0
  let nu : List Char × List Char :=
    if startsWithChars "//".data su.2 then splitNetloc (su.2.drop 2)
    else ([], su.2)
  let fu := splitFirst '#' nu.2
  let qu := splitFirst '?' fu.1
  let pp := splitParams qu.1
  { scheme := su.1, netloc := nu.1, path := pp.1, params := pp.2,
    query := qu.2, fragment := fu.2 }

/-- Hexadecimal digit value, if any. -/
def hexVal (c : Char) : Option Nat :=
  if c.isDigit then some (c.toNat - 48)
  else if 'a' ≤ c ∧ c ≤ 'f' then some (c.toNat - 87)
  else if 'A' ≤ c ∧ c ≤ 'F' then some (c.toNat - 55)
  else none

/-- Model of `urllib.parse.unquote_plus`: `+` becomes a space and `%XX`
escapes are decoded (per byte; exact for ASCII escapes, which is all the
claims exercise).  Invalid escapes are left untouched, as in CPython. -/
def unquotePlus : List Char → List Char
  | [] => []
  | '+' :: rest => ' ' :: unquotePlus rest
  | '%' :: h1 :: h2 :: rest2 =>
    (match hexVal h1, hexVal h2 with
     | some a, some b => Char.ofNat (16 * a + b) :: unquotePlus rest2
     | _, _ => '%' :: unquotePlus (h1 :: h2 :: rest2))
  | c :: rest => c :: unquotePlus rest

/-- Model of `urllib.parse.parse_qs` with default arguments: the query is
split on `&`; empty fragments are skipped; a fragment without `=` or with
a blank value is dropped (`keep_blank_values=False`); names and values are
decoded with `unquote_plus`.  The result is the ordered list of kept
name/value pairs. -/
def parseQsPairs (query : List Char) : List (List Char × List Char) :=
  (List.splitOn '&' query).filterMap (fun p =>
    if p.isEmpty then none
    else
      let nv := splitFirst '=' p
      if nv.1.length = p.length then none
      else if nv.2.isEmpty then none
      else some (unquotePlus nv.1, unquotePlus nv.2))

/-- `parse_qs(query).get('v')` followed by `[0]`: the first kept value of
the (decoded) parameter name `v`, if the name occurs at all. -/
def parse_qs_get_v (query : List Char) : Option (List Char) :=
  ((parseQsPairs query).find? (fun pr => pr.1 = "v".data)).map (fun pr => pr.2)

instance {ε α : Type} [DecidableEq ε] [DecidableEq α] : DecidableEq (Except ε α) :=
  fun x y =>
  match x, y with
  | .ok a, .ok b =>
    if h : a = b then isTrue (congrArg Except.ok h)
    else isFalse (fun hh => h (Except.ok.inj hh))
  | .error a, .error b =>
    if h : a = b then isTrue (congrArg Except.error h)
    else isFalse (fun hh => h (Except.error.inj hh))
  | .ok _, .error _ => isFalse (fun hh => Except.noConfusion hh)
  | .error _, .ok _ => isFalse (fun hh => Except.noConfusion hh)

/-- Python exception values that the resolver can raise internally. -/
inductive PyExn where
  | valueError (msg : String)
  | indexError (msg : String)
deriving DecidableEq

/-- `str(e)` for the exceptions above. -/
def PyExn.message : PyExn → String
  | .valueError m => m
  | .indexError m => m

/-- Body of the `try` block of `extract_video_id` (lines 11-33 of
`streamlit_app.py`).  `path_parts.get? 1 = some "embed"` encodes the
Python guard `len(path_parts) >= 2 and path_parts[1] == "embed"`, and the
unguarded `path_parts[2]` access is an `IndexError` when the index is out
of range. -/
def extract_video_id_try (video_url : String) : Except PyExn String :=
  let p := urlparse video_url.data
  if containsSub "youtube.com".data p.netloc then
    match parse_qs_get_v p.query with
    | some v => .ok (String.mk v)
    | none =>
      let path_parts := List.splitOn '/' p.path
      if path_parts[1]? = some ("embed".data) then
        match path_parts[2]? with
        | some seg => .ok (String.mk seg)
        | none => .error (.indexError "list index out of range")
      else .error (.valueError "Invalid YouTube URL: video ID not found.")
  else if containsSub "youtu.be".data p.netloc then
    let vid := p.path.dropWhile (fun c => c == '/')
    if vid.isEmpty then .error (.valueError "Invalid YouTube URL: video ID not found.")
    else .ok (String.mk vid)
  else
    if video_url.length = 11 then .ok video_url
    else .error (.valueError "Invalid YouTube URL.")

/-- `extract_video_id` (lines 7-35): the whole body runs under
`try ... except Exception as e: raise ValueError(f"Invalid YouTube URL: {e}")`,
so every internal exception — including the inner `ValueError`s and the
`IndexError` from `path_parts[2]` — reaches the caller as a `ValueError`
whose message is the wrapped `str(e)`. -/
def extract_video_id (video_url : String) : Except PyExn String :=
  match extract_video_id_try video_url with
  | .ok v => .ok v
  | .error e => .error (.valueError ("Invalid YouTube URL: " ++ e.message))

/-- Claim C1's classification of supported input shapes, written from the
claim's words over the same URL model: a youtube.com URL (netloc containing
`youtube.com`, checked first as the code does) with a `v` query parameter;
a youtube.com URL whose path begins with `/embed/` followed by an ID
segment (an identifier is a nonempty string, as in the youtu.be clause);
a youtu.be URL whose leading-slash-stripped path is the (nonempty) ID; or
a bare string of exactly 11 characters.  `some id` is the expected
identifier, `none` means the shape is unsupported. -/
def c1SupportedId (s : String) : Option String :=
  let p := urlparse s.data
  if containsSub "youtube.com".data p.netloc then
    match parse_qs_get_v p.query with
    | some v => some (String.mk v)
    | none =>
      let path_parts := List.splitOn '/' p.path
      if path_parts[1]? = some ("embed".data) then
        match path_parts[2]? with
        | some seg => if seg.isEmpty then none else some (String.mk seg)
        | none => none
      else none
  else if containsSub "youtu.be".data p.netloc then
    let vid := p.path.dropWhile (fun c => c == '/')
    if vid.isEmpty then none else some (String.mk vid)
  else if s.length = 11 then some s else none

/-- Claim C1 amended at the one point the code forces: when the path of a
youtube.com URL begins with `/embed/` and the following path segment is
empty, the resolver returns that empty segment instead of failing.  All
other shapes are classified exactly as in the claim. -/
def c1AmendedId (s : String) : Option String :=
  let p := urlparse s.data
  if containsSub "youtube.com".data p.netloc then
    match parse_qs_get_v p.query with
    | some v => some (String.mk v)
    | none =>
      let path_parts := List.splitOn '/' p.path
      if path_parts[1]? = some ("embed".data) then
        match path_parts[2]? with
        | some seg => some (String.mk seg)
        | none => none
      else none
  else if containsSub "youtu.be".data p.netloc then
    let vid := p.path.dropWhile (fun c => c == '/')
    if vid.isEmpty then none else some (String.mk vid)
  else if s.length = 11 then some s else none

/-- One caption entry as produced by the transcript service:
`{ text, start, duration }`.  Float values are modelled as exact
rationals. -/
structure CaptionEntry where
  text : String
  start : Rat
  duration : Rat
deriving DecidableEq

/-- Decimal digits of `n`, most significant first, by fuelled division
(`fuel ≥ n` steps always suffice). -/
def natCharsFuel : Nat → Nat → List Char → List Char
  | 0, _, acc => acc
  | fuel + 1, n, acc =>
    if n = 0 then acc else natCharsFuel fuel (n / 10) (Nat.digitChar (n % 10) :: acc)

/-- Decimal rendering of a natural number. -/
def natChars (n : Nat) : List Char :=
  if n = 0 then ['0'] else natCharsFuel n n []

/-- Round `a / b` (with `b > 0`) to the nearest integer, ties to even —
the rounding used by Python `format(x, '.2f')`. -/
def roundHalfEven (a b : Nat) : Nat :=
  let n := a / b
  let r := a % b
  if b < 2 * r then n + 1
  else if 2 * r < b then n
  else if n % 2 = 0 then n else n + 1

/-- Model of the Python format specifier `{:.2f}` on a rational: sign,
integer part, `.`, and exactly two fractional digits, the value rounded
half-to-even at two decimals. -/
def format2 (q : Rat) : List Char :=
  let cents := roundHalfEven (q.num.natAbs * 100) q.den
  let frac := cents % 100
  let s := natChars (cents / 100) ++ '.' ::
    (if frac < 10 then '0' :: natChars frac else natChars frac)
  if q < 0 then '-' :: s else s

/-- The f-string `f"[{start:.2f}s] {text}"` from line 65. -/
def renderLine (entry : CaptionEntry) : List Char :=
  '[' :: (format2 entry.start ++ 's' :: ']' :: ' ' :: entry.text.data)

/-- Python `"\n\n".join(lines)`. -/
def joinBlank : List (List Char) → List Char
  | [] => []
  | [l] => l
  | l :: l2 :: ls => l ++ '\n' :: '\n' :: joinBlank (l2 :: ls)

/-- `format_transcript` (lines 57-66): build the rendered line list by
repeated append, then join the lines with a blank line. -/
def format_transcript (transcript_data : List CaptionEntry) : String :=
  let lines := transcript_data.foldl (fun acc entry => acc ++ [renderLine entry]) []
  String.mk (joinBlank lines)

/-- Spec 4.3 variant (b), written from the spec's words: each entry
rendered as `"[{start:.2f}s] {text}"`, the renderings joined by a blank
line. -/
def formatter_variant_b (entries : List CaptionEntry) : String :=
  String.mk (joinBlank (entries.map
    (fun e => '[' :: (format2 e.start ++ 's' :: ']' :: ' ' :: e.text.data))))

/-- The `for entry in transcript_data` loop of `format_transcript` with
the iterated-over sequence threaded through explicitly as state: each
iteration reads `entry['start']` and `entry['text']` and appends one
rendered line; the second component is the entry sequence as the loop
leaves it. -/
def formatSteps : List CaptionEntry → List (List Char) × List CaptionEntry
  | [] => ([], [])
  | entry :: rest =>
    let tailRes := formatSteps rest
    (renderLine entry :: tailRes.1, entry :: tailRes.2)

/-- `format_transcript` as a state-passing computation: the formatted
string together with the input sequence as left behind by the loop. -/
def format_transcript_st (transcript_data : List CaptionEntry) :
    String × List CaptionEntry :=
  ((formatSteps transcript_data).1.foldl (fun acc l => acc ++ [l]) [] |> joinBlank
    |> String.mk,
   (formatSteps transcript_data).2)

/-- Prepend a character to the first segment of a split result. -/
def consHead (c : Char) : List (List Char) → List (List Char)
  | [] => [[c]]
  | seg :: segs => (c :: seg) :: segs

/-- Python `s.split("\n\n")`: split on the leftmost, non-overlapping
occurrences of the two-character separator; the empty string yields one
(empty) segment. -/
def splitOnBlank : List Char → List (List Char)
  | [] => [[]]
  | [c] => [[c]]
  | c1 :: c2 :: rest =>
    if c1 = '\n' ∧ c2 = '\n' then [] :: splitOnBlank rest
    else consHead c1 (splitOnBlank (c2 :: rest))

/-- Whether the two-character separator `"\n\n"` occurs in the string. -/
def hasBlank : List Char → Bool
  | [] => false
  | [_] => false
  | c1 :: c2 :: rest => (c1 == '\n' && c2 == '\n') || hasBlank (c2 :: rest)

/-- Whether the string is nonempty and ends in a newline. -/
def lastIsNl : List Char → Bool
  | [] => false
  | [c] => c == '\n'
  | _ :: c2 :: rest => lastIsNl (c2 :: rest)

/-- Exceptions of the external captions-retrieval service: the two typed
errors imported on line 2 plus an arbitrary transport/service error. -/
inductive SvcExn where
  | noTranscriptFound
  | transcriptsDisabled
  | otherError (msg : String)
deriving DecidableEq

/-- `str(e)` for service exceptions (the typed ones render as fixed
library messages, modelled by fixed strings). -/
def SvcExn.message : SvcExn → String
  | .noTranscriptFound => "No transcripts were found for any of the requested language codes"
  | .transcriptsDisabled => "Subtitles are disabled for this video"
  | .otherError m => m

/-- One transcript track as listed by the service: its language metadata
and the outcome of fetching it. -/
structure Track where
  language_code : String
  fetchResult : Except SvcExn (List CaptionEntry)
deriving DecidableEq

/-- The external captions-retrieval service (`YouTubeTranscriptApi`),
modelled as an oracle giving the outcome of each API call for a video. -/
structure Service where
  get_transcript : String → List String → Except SvcExn (List CaptionEntry)
  list_transcripts : String → Except SvcExn (List Track)

/-- Modelled from the spec: the captions library's
`TranscriptList.find_transcript`, which is external collaborator code not
in this repository, selects the first preference-list language that has a
listed track ("selecting via the same preference list against the track
metadata", spec 4.2) and raises the no-transcript-found error when none
has one. -/
def find_transcript (tracks : List Track) : List String → Except SvcExn Track
  | [] => .error .noTranscriptFound
  | l :: ls =>
    match tracks.find? (fun t => t.language_code == l) with
    | some t => .ok t
    | none => find_transcript tracks ls

/-- Observable events of one request: Streamlit messages, service calls
and file operations, in program order. -/
inductive Event where
  | uiError (msg : String)
  | uiWarning (msg : String)
  | uiSuccess (msg : String)
  | svcDirectFetch (video_id : String) (languages : List String)
  | svcListTranscripts (video_id : String)
  | fileSave (filename : String) (content : String)
  | fileOpen (filename : String)
  | downloadButton (filename : String)
  | fileRemove (filename : String)
  | uncaughtExn (msg : String)
deriving DecidableEq

/-- Outcome of `get_transcript`: the Python return value under `.ok`
(`some` entry list, or `none` for `None`), `.error` for an exception
escaping to the caller, plus the emitted events. -/
structure GTResult where
  result : Except SvcExn (Option (List CaptionEntry))
  events : List Event
deriving DecidableEq

/-- The body of the inner `try` of `get_transcript` (lines 45-46):
`YouTubeTranscriptApi.list_transcripts(video_id)` followed by
`.find_transcript(languages).fetch()`; any step may raise. -/
def fallback_fetch (svc : Service) (video_id : String) (languages : List String) :
    Except SvcExn (List CaptionEntry) := do
  let tracks ← svc.list_transcripts video_id
  let t ← find_transcript tracks languages
  t.fetchResult

/-- `get_transcript` (lines 37-55).  The handlers are tried in source
order: `except NoTranscriptFound` runs the single fallback
(`list_transcripts` + `find_transcript` + `fetch`) under an inner
`except Exception` that reports `"Transcript error: {e}"` and returns
`None`; `except TranscriptsDisabled` warns and returns `None`; the final
`except Exception` reports `"Unexpected error: {e}"` and returns `None`. -/
def get_transcript (svc : Service) (video_id : String) (languages : List String) :
    GTResult :=
  match svc.get_transcript video_id languages with
  | .ok transcript =>
    { result := .ok (some transcript),
      events := [.svcDirectFetch video_id languages] }
  | .error .noTranscriptFound =>
    (match fallback_fetch svc video_id languages with
     | .ok transcript =>
       { result := .ok (some transcript),
         events := [.svcDirectFetch video_id languages, .svcListTranscripts video_id] }
     | .error e =>
       { result := .ok none,
         events := [.svcDirectFetch video_id languages, .svcListTranscripts video_id,
                    .uiError ("Transcript error: " ++ e.message)] })
  | .error .transcriptsDisabled =>
    { result := .ok none,
      events := [.svcDirectFetch video_id languages,
                 .uiWarning "Subtitles are disabled for this video."] }
  | .error (.otherError m) =>
    { result := .ok none,
      events := [.svcDirectFetch video_id languages,
                 .uiError ("Unexpected error: " ++ m)] }

/-- `save_to_docx` (lines 68-79): one document paragraph per
blank-line-separated block of the text, and the file written under
`filename`.  The filesystem is the list of existing file names. -/
def save_to_docx (text : String) (filename : String) (fs : List String) :
    List (List Char) × List String :=
  (splitOnBlank text.data, fs.insert filename)

/-- Python whitespace stripped by `str.strip()` (ASCII part). -/
def isPyWhitespace (c : Char) : Bool :=
  c == ' ' || c == '\t' || c == '\n' || c == '\r' || c.toNat == 11 || c.toNat == 12

/-- Python `str.strip()`. -/
def pyStrip (s : String) : String :=
  String.mk (((s.data.dropWhile isPyWhitespace).reverse.dropWhile isPyWhitespace).reverse)

/-- The `Generate Transcript` button handler inside `main`
(lines 91-117), as a function of the text-input value, the transcript
service and the filesystem.  Returns the final filesystem and the ordered
trace of messages, service calls and file operations.  `except ValueError`
catches exactly the resolver's `ValueError`; any other escaping exception
would crash the handler (traced as `uncaughtExn`). -/
def main_generate (svc : Service) (video_url : String) (fs : List String) :
    List String × List Event :=
  if pyStrip video_url = "" then
    (fs, [.uiError "Please enter a valid YouTube video URL."])
  else
    match extract_video_id video_url with
    | .error (.valueError m) => (fs, [.uiError m])
    | .error e => (fs, [.uncaughtExn e.message])
    | .ok video_id =>
      match (get_transcript svc video_id ["ja", "en"]).result with
      | .error e =>
        (fs, (get_transcript svc video_id ["ja", "en"]).events ++ [.uncaughtExn e.message])
      | .ok none =>
        (fs, (get_transcript svc video_id ["ja", "en"]).events ++
          [.uiWarning "Transcript not available in Japanese or English."])
      | .ok (some transcript) =>
        if transcript.isEmpty then
          (fs, (get_transcript svc video_id ["ja", "en"]).events ++
            [.uiWarning "Transcript not available in Japanese or English."])
        else
          ((save_to_docx (format_transcript transcript)
              (video_id ++ "_transcript.docx") fs).2.filter
             (fun n => n != video_id ++ "_transcript.docx"),
           (get_transcript svc video_id ["ja", "en"]).events ++
            [.fileSave (video_id ++ "_transcript.docx") (format_transcript transcript),
             .fileOpen (video_id ++ "_transcript.docx"),
             .uiSuccess "✅ Transcript generated successfully!",
             .downloadButton (video_id ++ "_transcript.docx"),
             .fileRemove (video_id ++ "_transcript.docx")])

/-- Whether an event is a call to the external transcript service. -/
def Event.isSvcCall : Event → Bool
  | .svcDirectFetch _ _ => true
  | .svcListTranscripts _ => true
  | _ => false

/-- A concrete caption entry used in witnesses. -/
def demoEntry : CaptionEntry := ⟨"hello", 0, 0⟩

/-- A concrete English track used in witnesses. -/
def demoTrackEn : Track := ⟨"en", .ok [demoEntry]⟩

/-- A service whose direct fetch always reports no transcript but whose
listing offers an English track. -/
def demoSvcFallback : Service :=
  { get_transcript := fun _ _ => .error .noTranscriptFound,
    list_transcripts := fun _ => .ok [demoTrackEn] }

/-- A service whose direct fetch always succeeds. -/
def demoSvcDirect : Service :=
  { get_transcript := fun _ _ => .ok [demoEntry],
    list_transcripts := fun _ => .error .noTranscriptFound }

/-- Folding with repeated append (the `lines.append` loop shape of
`format_transcript`) produces the mapped list. -/
theorem foldl_append_eq_map {α β : Type} (f : α → β) (l : List α) :
    ∀ acc : List β, l.foldl (fun a e => a ++ [f e]) acc = acc ++ l.map f := by
  induction l with
  | nil => intro acc; simp
  | cons e t ih => intro acc; simp [List.foldl, ih]

/-- The amended claim-C1 classifier computes exactly the successful
outcomes of the resolver's `try` body. -/
theorem c1AmendedId_eq (s : String) :
    c1AmendedId s = (extract_video_id_try s).toOption := by
  unfold c1AmendedId extract_video_id_try
  generalize urlparse s.data = p
  cases hyt : containsSub "youtube.com".data p.netloc
  case false =>
    simp only [hyt, Bool.false_eq_true, if_false]
    cases hyb : containsSub "youtu.be".data p.netloc
    case false =>
      simp only [hyb, Bool.false_eq_true, if_false]
      by_cases hlen : s.length = 11 <;> simp [hlen, Except.toOption]
    case true =>
      simp only [hyb, if_true]
      by_cases hvid : (p.path.dropWhile (fun c => c == '/')).isEmpty <;>
        simp [hvid, Except.toOption]
  case true =>
    simp only [hyt, if_true]
    cases hv : parse_qs_get_v p.query
    case some v => simp [Except.toOption]
    case none =>
      by_cases hemb : (List.splitOn '/' p.path)[1]? = some ("embed".data)
      · simp only [hemb, if_true]
        cases hseg : (List.splitOn '/' p.path)[2]? <;> simp [Except.toOption]
      · simp [hemb, Except.toOption]

/-- Claim C1, amended: for every input string, if the amended
classification (supported shapes as in the claim, with the `/embed/` case
allowed an empty following segment and returning it) yields an identifier
then `extract_video_id` returns exactly that identifier, and for every
other shape it fails with a `ValueError`. -/
theorem extract_video_id_c1 (s : String) :
    (∀ v, c1AmendedId s = some v → extract_video_id s = .ok v) ∧
    (c1AmendedId s = none → ∃ m, extract_video_id s = .error (.valueError m)) := by
  have h := c1AmendedId_eq s
  unfold extract_video_id
  cases ht : extract_video_id_try s with
  | ok v0 =>
    rw [ht] at h
    simp only [Except.toOption] at h
    refine ⟨fun v hv => ?_, fun hn => ?_⟩
    · rw [h] at hv; cases hv; rfl
    · rw [h] at hn; cases hn
  | error e =>
    rw [ht] at h
    simp only [Except.toOption] at h
    refine ⟨fun v hv => ?_, fun _ => ⟨_, rfl⟩⟩
    · rw [h] at hv; cases hv

/-- Witness for the amended claim C1: a supported `?v=` URL resolves to
its `v` parameter, and an unsupported bare string fails with a
`ValueError`. -/
theorem extract_video_id_c1_witness :
    c1AmendedId "https://www.youtube.com/watch?v=abc12345678" = some "abc12345678" ∧
    extract_video_id "https://www.youtube.com/watch?v=abc12345678" = .ok "abc12345678" ∧
    c1AmendedId "not a url" = none ∧
    (∃ m, extract_video_id "not a url" = .error (.valueError m)) :=
  ⟨by decide,
   (extract_video_id_c1 "https://www.youtube.com/watch?v=abc12345678").1
     "abc12345678" (by decide),
   by decide,
   (extract_video_id_c1 "not a url").2 (by decide)⟩

/-- Claim C1 as stated is false at `"https://www.youtube.com/embed/"`:
the path begins with `/embed/` but is followed by no (nonempty) ID
segment, so the claim requires a `ValueError`, yet the code returns the
empty string as the identifier. -/
theorem extract_video_id_c1_counterexample :
    ¬ ((∀ v, c1SupportedId "https://www.youtube.com/embed/" = some v →
          extract_video_id "https://www.youtube.com/embed/" = .ok v) ∧
       (c1SupportedId "https://www.youtube.com/embed/" = none →
          ∃ m, extract_video_id "https://www.youtube.com/embed/" =
            .error (.valueError m))) := by
  intro h
  rcases h.2 (by decide) with ⟨m, hm⟩
  rw [show extract_video_id "https://www.youtube.com/embed/" = .ok "" from by decide] at hm
  exact Except.noConfusion hm

/-- Claim C6: `extract_video_id` always either returns an identifier or
fails with a `ValueError` — never any other exception; concretely, for the
`/embed`-with-no-segment path the `try` body raises an `IndexError` which
the caller sees only as the wrapped `ValueError`; and the edge-case
families (extra query parameters, trailing slash, scheme-less bare
domain) resolve or fail deterministically. -/
theorem extract_video_id_c6 :
    (∀ s : String, (∃ v, extract_video_id s = .ok v) ∨
      (∃ m, extract_video_id s = .error (.valueError m))) ∧
    extract_video_id_try "https://www.youtube.com/embed" =
      .error (.indexError "list index out of range") ∧
    extract_video_id "https://www.youtube.com/embed" =
      .error (.valueError "Invalid YouTube URL: list index out of range") ∧
    extract_video_id "https://www.youtube.com/watch?v=abc12345678&t=1" = .ok "abc12345678" ∧
    extract_video_id "https://youtu.be/abc12345678/" = .ok "abc12345678/" ∧
    extract_video_id "youtube.com/watch?v=abc12345678" =
      .error (.valueError "Invalid YouTube URL: Invalid YouTube URL.") := by
  refine ⟨fun s => ?_, by decide, by decide, by decide, by decide, by decide⟩
  unfold extract_video_id
  cases extract_video_id_try s with
  | ok v => exact .inl ⟨v, rfl⟩
  | error e => exact .inr ⟨_, rfl⟩

/-- Claim C4: `format_transcript` computes exactly the spec's documented
variant (b): each entry rendered as `"[{start:.2f}s] {text}"`, joined by a
blank line. -/
theorem format_transcript_c4 (entries : List CaptionEntry) :
    format_transcript entries = formatter_variant_b entries := by
  unfold format_transcript formatter_variant_b
  rw [foldl_append_eq_map]
  rfl

/-- Claim C10: `get_transcript` never lets an exception escape — for every
service behaviour it returns either an entry list or `None`. -/
theorem get_transcript_c10 (svc : Service) (video_id : String) (languages : List String) :
    ∃ v, (get_transcript svc video_id languages).result = .ok v := by
  unfold get_transcript
  cases svc.get_transcript video_id languages with
  | ok t => exact ⟨some t, rfl⟩
  | error e =>
    cases e with
    | noTranscriptFound => cases fallback_fetch svc video_id languages <;> exact ⟨_, rfl⟩
    | transcriptsDisabled => exact ⟨none, rfl⟩
    | otherError m => exact ⟨none, rfl⟩

/-- Folding plain appends accumulates the list itself. -/
theorem foldl_append_id (l : List (List Char)) :
    ∀ acc : List (List Char), l.foldl (fun a e => a ++ [e]) acc = acc ++ l := by
  induction l with
  | nil => intro acc; simp
  | cons e t ih => intro acc; simp [List.foldl, ih]

/-- The character data of the formatted transcript is the blank-line join
of the rendered lines. -/
theorem format_transcript_data (entries : List CaptionEntry) :
    (format_transcript entries).data = joinBlank (entries.map renderLine) := by
  unfold format_transcript
  rw [foldl_append_eq_map]
  rfl

/-- The formatter loop renders one line per entry and leaves the entry
sequence unchanged. -/
theorem formatSteps_eq (l : List CaptionEntry) :
    formatSteps l = (l.map renderLine, l) := by
  induction l with
  | nil => rfl
  | cons e t ih => simp [formatSteps, ih]

/-- Claim C7: the formatter is pure — the state-passing run leaves the
input sequence unmodified, its output is the pure function's output, and
two runs on the same input are identical. -/
theorem format_transcript_c7 (transcript_data : List CaptionEntry) :
    (format_transcript_st transcript_data).2 = transcript_data ∧
    (format_transcript_st transcript_data).1 = format_transcript transcript_data ∧
    format_transcript_st transcript_data = format_transcript_st transcript_data := by
  refine ⟨?_, ?_, rfl⟩
  · simp [format_transcript_st, formatSteps_eq]
  · have h1 : (format_transcript_st transcript_data).1 =
        String.mk (joinBlank (transcript_data.map renderLine)) := by
      simp [format_transcript_st, formatSteps_eq, foldl_append_id]
    rw [h1]
    exact (congrArg String.mk (format_transcript_data transcript_data)).symm

/-- A decimal digit character is never a newline. -/
theorem digitChar_ne_nl : ∀ d : Nat, d < 10 → Nat.digitChar d ≠ '\n' := by decide

/-- `natCharsFuel` only ever adds digit characters to the accumulator. -/
theorem natCharsFuel_ne_nl : ∀ (fuel n : Nat) (acc : List Char),
    (∀ c ∈ acc, c ≠ '\n') → ∀ c ∈ natCharsFuel fuel n acc, c ≠ '\n' := by
  intro fuel
  induction fuel with
  | zero => intro n acc hacc c hc; exact hacc c hc
  | succ f ih =>
    intro n acc hacc c hc
    rw [show natCharsFuel (f + 1) n acc =
          (if n = 0 then acc else natCharsFuel f (n / 10) (Nat.digitChar (n % 10) :: acc))
        from rfl] at hc
    by_cases hn : n = 0
    · rw [if_pos hn] at hc; exact hacc c hc
    · rw [if_neg hn] at hc
      refine ih (n / 10) _ ?_ c hc
      intro c2 hc2
      rcases List.mem_cons.mp hc2 with h | h
      · subst h; exact digitChar_ne_nl _ (Nat.mod_lt _ (by norm_num))
      · exact hacc c2 h

/-- The decimal rendering of a natural number contains no newline. -/
theorem natChars_ne_nl (n : Nat) : ∀ c ∈ natChars n, c ≠ '\n' := by
  unfold natChars
  by_cases hn : n = 0
  · rw [if_pos hn]
    intro c hc
    rw [List.mem_singleton] at hc
    subst hc
    decide
  · rw [if_neg hn]
    exact natCharsFuel_ne_nl n n [] (fun c hc => absurd hc (List.not_mem_nil c))

/-- The `{:.2f}` rendering contains no newline. -/
theorem format2_ne_nl (q : Rat) : ∀ c ∈ format2 q, c ≠ '\n' := by
  intro c hc
  unfold format2 at hc
  split at hc
  case isTrue =>
    rcases List.mem_cons.mp hc with h | h
    · subst h; decide
    · rcases List.mem_append.mp h with h2 | h2
      · exact natChars_ne_nl _ c h2
      · rcases List.mem_cons.mp h2 with h3 | h3
        · subst h3; decide
        · split at h3
          · rcases List.mem_cons.mp h3 with h4 | h4
            · subst h4; decide
            · exact natChars_ne_nl _ c h4
          · exact natChars_ne_nl _ c h3
  case isFalse =>
    rcases List.mem_append.mp hc with h2 | h2
    · exact natChars_ne_nl _ c h2
    · rcases List.mem_cons.mp h2 with h3 | h3
      · subst h3; decide
      · split at h3
        · rcases List.mem_cons.mp h3 with h4 | h4
          · subst h4; decide
          · exact natChars_ne_nl _ c h4
        · exact natChars_ne_nl _ c h3

/-- Appending a newline-free prefix cannot create a blank-line separator. -/
theorem hasBlank_append_noNl : ∀ a b : List Char, (∀ c ∈ a, c ≠ '\n') →
    hasBlank b = false → hasBlank (a ++ b) = false := by
  intro a
  induction a with
  | nil => intro b _ hb; simpa using hb
  | cons c t ih =>
    intro b ha hb
    have hc : c ≠ '\n' := ha c (List.mem_cons_self _ _)
    have ht : ∀ x ∈ t, x ≠ '\n' := fun x hx => ha x (List.mem_cons_of_mem _ hx)
    rw [List.cons_append]
    cases htb : t ++ b with
    | nil => rfl
    | cons d u =>
      rw [show hasBlank (c :: d :: u) =
            (((c == '\n') && (d == '\n')) || hasBlank (d :: u)) from rfl]
      have h2 : hasBlank (d :: u) = false := by rw [← htb]; exact ih b ht hb
      have h3 : (c == '\n') = false := beq_eq_false_iff_ne.mpr hc
      rw [h2, h3]
      rfl

/-- A newline-free string contains no blank-line separator. -/
theorem hasBlank_of_noNl (l : List Char) (h : ∀ c ∈ l, c ≠ '\n') :
    hasBlank l = false := by
  have := hasBlank_append_noNl l [] h rfl
  simpa using this

/-- `lastIsNl` of an append looks only at the nonempty right part. -/
theorem lastIsNl_append : ∀ a b : List Char, b ≠ [] →
    lastIsNl (a ++ b) = lastIsNl b := by
  intro a
  induction a with
  | nil => intro b _; rfl
  | cons c t ih =>
    intro b hb
    rw [List.cons_append]
    cases htb : t ++ b with
    | nil => exact absurd (List.append_eq_nil.mp htb).2 hb
    | cons d u =>
      have h1 : lastIsNl (c :: d :: u) = lastIsNl (d :: u) := rfl
      rw [h1, ← htb, ih b hb]

/-- A string without the blank-line separator splits into one segment. -/
theorem splitOnBlank_noBlank (l : List Char) : hasBlank l = false →
    splitOnBlank l = [l] := by
  induction l with
  | nil => intro _; rfl
  | cons c t ih =>
    intro h
    cases t with
    | nil => rfl
    | cons c2 t2 =>
      have hb := h
      rw [show hasBlank (c :: c2 :: t2) =
            (((c == '\n') && (c2 == '\n')) || hasBlank (c2 :: t2)) from rfl] at hb
      rcases Bool.or_eq_false_iff.mp hb with ⟨h1, h2⟩
      have hcond : ¬(c = '\n' ∧ c2 = '\n') := by
        rintro ⟨e1, e2⟩
        subst e1; subst e2
        simp at h1
      rw [show splitOnBlank (c :: c2 :: t2) =
            (if c = '\n' ∧ c2 = '\n' then [] :: splitOnBlank t2
             else consHead c (splitOnBlank (c2 :: t2))) from rfl,
          if_neg hcond, ih h2]
      rfl

/-- Splitting a clean line followed by the separator peels off exactly
that line: the line neither contains the separator nor ends in a newline
(which would let the separator match one position early). -/
theorem splitOnBlank_append (rest : List Char) : ∀ l : List Char,
    hasBlank l = false → lastIsNl l = false →
    splitOnBlank (l ++ '\n' :: '\n' :: rest) = l :: splitOnBlank rest := by
  intro l
  induction l with
  | nil =>
    intro _ _
    rw [List.nil_append]
    rw [show splitOnBlank ('\n' :: '\n' :: rest) =
          (if ('\n' : Char) = '\n' ∧ ('\n' : Char) = '\n' then [] :: splitOnBlank rest
           else consHead '\n' (splitOnBlank ('\n' :: rest))) from rfl,
        if_pos ⟨rfl, rfl⟩]
  | cons c t ih =>
    intro hb hl
    rw [List.cons_append]
    cases t with
    | nil =>
      have hc : ¬ c = '\n' := by
        intro e
        rw [show lastIsNl [c] = (c == '\n') from rfl] at hl
        subst e
        simp at hl
      rw [List.nil_append]
      rw [show splitOnBlank (c :: '\n' :: '\n' :: rest) =
            (if c = '\n' ∧ ('\n' : Char) = '\n' then [] :: splitOnBlank ('\n' :: rest)
             else consHead c (splitOnBlank ('\n' :: '\n' :: rest))) from rfl,
          if_neg (fun hand => hc hand.1)]
      rw [show splitOnBlank ('\n' :: '\n' :: rest) =
            (if ('\n' : Char) = '\n' ∧ ('\n' : Char) = '\n' then [] :: splitOnBlank rest
             else consHead '\n' (splitOnBlank ('\n' :: rest))) from rfl,
          if_pos ⟨rfl, rfl⟩]
      rfl
    | cons c2 t2 =>
      have hb2 := hb
      rw [show hasBlank (c :: c2 :: t2) =
            (((c == '\n') && (c2 == '\n')) || hasBlank (c2 :: t2)) from rfl] at hb2
      rcases Bool.or_eq_false_iff.mp hb2 with ⟨h1, h2⟩
      have hcond : ¬(c = '\n' ∧ c2 = '\n') := by
        rintro ⟨e1, e2⟩
        subst e1; subst e2
        simp at h1
      have hl2 : lastIsNl (c2 :: t2) = false := hl
      rw [List.cons_append]
      rw [show splitOnBlank (c :: c2 :: (t2 ++ '\n' :: '\n' :: rest)) =
            (if c = '\n' ∧ c2 = '\n' then [] :: splitOnBlank (t2 ++ '\n' :: '\n' :: rest)
             else consHead c (splitOnBlank (c2 :: (t2 ++ '\n' :: '\n' :: rest)))) from rfl,
          if_neg hcond]
      have hrec := ih h2 hl2
      rw [List.cons_append] at hrec
      rw [hrec]
      rfl

/-- Joining clean lines with the separator and splitting again recovers
the lines. -/
theorem splitOnBlank_joinBlank : ∀ lines : List (List Char), lines ≠ [] →
    (∀ l ∈ lines, hasBlank l = false ∧ lastIsNl l = false) →
    splitOnBlank (joinBlank lines) = lines := by
  intro lines
  induction lines with
  | nil => intro h _; exact absurd rfl h
  | cons l ls ih =>
    intro _ h
    cases ls with
    | nil =>
      have := splitOnBlank_noBlank l (h l (List.mem_cons_self _ _)).1
      simpa [joinBlank] using this
    | cons l2 ls2 =>
      have h1 := h l (List.mem_cons_self _ _)
      rw [show joinBlank (l :: l2 :: ls2) = l ++ '\n' :: '\n' :: joinBlank (l2 :: ls2)
            from rfl]
      rw [splitOnBlank_append (joinBlank (l2 :: ls2)) l h1.1 h1.2]
      rw [ih (by simp) (fun x hx => h x (List.mem_cons_of_mem _ hx))]

/-- The rendered line decomposed as a newline-free front followed by the
entry text. -/
theorem renderLine_eq (e : CaptionEntry) :
    renderLine e = ('[' :: (format2 e.start ++ ['s', ']', ' '])) ++ e.text.data := by
  unfold renderLine
  simp

/-- Every character before the entry text in a rendered line is
newline-free. -/
theorem renderLine_front_ne_nl (e : CaptionEntry) :
    ∀ c ∈ ('[' :: (format2 e.start ++ ['s', ']', ' '])), c ≠ '\n' := by
  intro c hc
  rcases List.mem_cons.mp hc with h | h
  · subst h; decide
  · rcases List.mem_append.mp h with h2 | h2
    · exact format2_ne_nl e.start c h2
    · simp only [List.mem_cons, List.not_mem_nil, or_false] at h2
      rcases h2 with rfl | rfl | rfl <;> decide

/-- A rendered line is separator-clean whenever its entry text is. -/
theorem renderLine_clean (e : CaptionEntry) (ht : hasBlank e.text.data = false)
    (hl : lastIsNl e.text.data = false) :
    hasBlank (renderLine e) = false ∧ lastIsNl (renderLine e) = false := by
  rw [renderLine_eq]
  constructor
  · exact hasBlank_append_noNl _ _ (renderLine_front_ne_nl e) ht
  · cases hte : e.text.data with
    | nil =>
      rw [List.append_nil]
      have hdecomp : ('[' :: (format2 e.start ++ ['s', ']', ' '])) =
          ('[' :: (format2 e.start ++ ['s', ']'])) ++ [' '] := by simp
      rw [hdecomp, lastIsNl_append _ _ (by simp)]
      rfl
    | cons d u =>
      rw [lastIsNl_append _ _ (by simp), ← hte]
      exact hl

/-- Claim C3 (amended): for every nonempty caption-entry sequence whose
texts neither contain the paragraph separator `"\n\n"` nor end in a
newline, splitting the formatted transcript on the separator yields
exactly one segment per entry, in order, the i-th segment containing the
i-th entry's text — no entry dropped or reordered. -/
theorem format_transcript_c3 (entries : List CaptionEntry)
    (hne : entries ≠ [])
    (hclean : ∀ e ∈ entries, hasBlank e.text.data = false ∧ lastIsNl e.text.data = false) :
    (splitOnBlank (format_transcript entries).data).length = entries.length ∧
    ∀ (i : Nat) (e : CaptionEntry) (seg : List Char), entries[i]? = some e →
      (splitOnBlank (format_transcript entries).data)[i]? = some seg →
      e.text.data <:+: seg := by
  have hsplit : splitOnBlank (format_transcript entries).data = entries.map renderLine := by
    rw [format_transcript_data]
    refine splitOnBlank_joinBlank _ (by simpa using hne) ?_
    intro l hlmem
    rcases List.mem_map.mp hlmem with ⟨e, he, rfl⟩
    exact renderLine_clean e (hclean e he).1 (hclean e he).2
  refine ⟨by rw [hsplit, List.length_map], ?_⟩
  intro i e seg hi hseg
  rw [hsplit, List.getElem?_map, hi] at hseg
  have hseg2 : renderLine e = seg := Option.some.inj hseg
  rw [← hseg2, renderLine_eq]
  exact ⟨'[' :: (format2 e.start ++ ['s', ']', ' ']), [], by simp⟩

/-- Witness for the amended claim C3 at a concrete two-entry transcript. -/
theorem format_transcript_c3_witness :
    (splitOnBlank (format_transcript
        [⟨"hello", 0, 0⟩, ⟨"world", 0, 0⟩]).data).length =
      ([⟨"hello", 0, 0⟩, ⟨"world", 0, 0⟩] : List CaptionEntry).length :=
  (format_transcript_c3 [⟨"hello", 0, 0⟩, ⟨"world", 0, 0⟩]
    (by decide) (by decide)).1

/-- Claim C3 as stated is false: the empty sequence formats to `""`, which
splits into one segment rather than zero; an entry whose text contains the
separator splits into two segments rather than one; and a text ending in a
newline loses that newline to the following separator, so its segment no
longer contains the entry's text. -/
theorem format_transcript_c3_counterexample :
    (splitOnBlank (format_transcript ([] : List CaptionEntry)).data).length ≠
      ([] : List CaptionEntry).length ∧
    (splitOnBlank (format_transcript [⟨"a\n\nb", 0, 0⟩]).data).length ≠
      ([⟨"a\n\nb", 0, 0⟩] : List CaptionEntry).length ∧
    ((splitOnBlank (format_transcript
        [⟨"a\n", 0, 0⟩, ⟨"b", 0, 0⟩]).data)[0]? = some "[0.00s] a".data ∧
      ¬ ("a\n".data <:+: "[0.00s] a".data)) := by
  refine ⟨by decide, by decide, by decide, by decide⟩

/-- Claim C2: the fetch policy.  The first service call is always the
single direct fetch with the full preference list; the fallback listing
happens exactly when — and only when — the direct fetch raises the
no-transcript-found error, and then exactly once with no further service
calls; and when the first-choice language has no listed track but a later
preference resolves to a track that fetches, the fallback's entries are
returned rather than a failure. -/
theorem get_transcript_c2 (svc : Service) (video_id : String) (languages : List String) :
    ((get_transcript svc video_id languages).events.head? =
      some (.svcDirectFetch video_id languages)) ∧
    (svc.get_transcript video_id languages ≠ .error .noTranscriptFound →
      (get_transcript svc video_id languages).events.filter Event.isSvcCall =
        [.svcDirectFetch video_id languages]) ∧
    (svc.get_transcript video_id languages = .error .noTranscriptFound →
      (get_transcript svc video_id languages).events.filter Event.isSvcCall =
        [.svcDirectFetch video_id languages, .svcListTranscripts video_id]) ∧
    (∀ (l1 : String) (ls : List String) (tracks : List Track) (t : Track)
        (es : List CaptionEntry),
      languages = l1 :: ls →
      svc.get_transcript video_id languages = .error .noTranscriptFound →
      svc.list_transcripts video_id = .ok tracks →
      tracks.find? (fun tr => tr.language_code == l1) = none →
      find_transcript tracks ls = .ok t →
      t.fetchResult = .ok es →
      (get_transcript svc video_id languages).result = .ok (some es)) := by
  refine ⟨?_, ?_, ?_, ?_⟩
  · unfold get_transcript
    cases svc.get_transcript video_id languages with
    | ok t => rfl
    | error e =>
      cases e with
      | noTranscriptFound => cases fallback_fetch svc video_id languages <;> rfl
      | transcriptsDisabled => rfl
      | otherError m => rfl
  · intro hne
    unfold get_transcript
    cases h : svc.get_transcript video_id languages with
    | ok t => simp [List.filter, Event.isSvcCall]
    | error e =>
      cases e with
      | noTranscriptFound => exact absurd h hne
      | transcriptsDisabled => simp [List.filter, Event.isSvcCall]
      | otherError m => simp [List.filter, Event.isSvcCall]
  · intro heq
    unfold get_transcript
    rw [heq]
    cases fallback_fetch svc video_id languages <;> simp [List.filter, Event.isSvcCall]
  · intro l1 ls tracks t es hlang hno hlist hfind hrest hfetch
    have hstep : find_transcript tracks (l1 :: ls) = .ok t := by
      rw [show find_transcript tracks (l1 :: ls) =
            (match tracks.find? (fun tr => tr.language_code == l1) with
             | some tr => Except.ok tr
             | none => find_transcript tracks ls) from rfl, hfind]
      exact hrest
    have hfb : fallback_fetch svc video_id languages = .ok es := by
      unfold fallback_fetch
      rw [hlang, hlist]
      show (find_transcript tracks (l1 :: ls)).bind (fun tr => tr.fetchResult) = .ok es
      rw [hstep]
      show t.fetchResult = .ok es
      exact hfetch
    unfold get_transcript
    rw [hno, hfb]

/-- Witness for claim C2: with preference `["ja","en"]`, a service whose
direct fetch reports no transcript but whose listing has only an English
track makes `get_transcript` return the English entries. -/
theorem get_transcript_c2_witness :
    (get_transcript demoSvcFallback "vid123" ["ja", "en"]).result =
      .ok (some [demoEntry]) :=
  (get_transcript_c2 demoSvcFallback "vid123" ["ja", "en"]).2.2.2 "ja" ["en"]
    [demoTrackEn] demoTrackEn [demoEntry] rfl rfl rfl (by decide) (by decide) rfl

/-- Claim C5: the three failure causes are reported distinguishably —
captions disabled produces exactly the dedicated warning (not a generic
error), a failed fallback produces the `"Transcript error: "` message, any
other service failure the `"Unexpected error: "` message, and the three
reports are pairwise distinct. -/
theorem get_transcript_c5 (svc : Service) (video_id : String) (languages : List String) :
    (svc.get_transcript video_id languages = .error .transcriptsDisabled →
      get_transcript svc video_id languages =
        { result := .ok none,
          events := [.svcDirectFetch video_id languages,
                     .uiWarning "Subtitles are disabled for this video."] }) ∧
    (∀ e : SvcExn, svc.get_transcript video_id languages = .error .noTranscriptFound →
      fallback_fetch svc video_id languages = .error e →
      get_transcript svc video_id languages =
        { result := .ok none,
          events := [.svcDirectFetch video_id languages, .svcListTranscripts video_id,
                     .uiError ("Transcript error: " ++ e.message)] }) ∧
    (∀ m : String, svc.get_transcript video_id languages = .error (.otherError m) →
      get_transcript svc video_id languages =
        { result := .ok none,
          events := [.svcDirectFetch video_id languages,
                     .uiError ("Unexpected error: " ++ m)] }) ∧
    (∀ x y : String, Event.uiWarning x ≠ Event.uiError y) ∧
    (∀ x y : String, "Transcript error: " ++ x ≠ "Unexpected error: " ++ y) := by
  refine ⟨?_, ?_, ?_, ?_, ?_⟩
  · intro h; unfold get_transcript; rw [h]
  · intro e h hf; unfold get_transcript; rw [h, hf]
  · intro m h; unfold get_transcript; rw [h]
  · intro x y h; exact Event.noConfusion h
  · intro x y h
    have h2 : "Transcript error: ".data ++ x.data = "Unexpected error: ".data ++ y.data := by
      rw [← String.data_append, ← String.data_append, h]
    rw [show "Transcript error: ".data = 'T' :: "ranscript error: ".data from by decide,
        show "Unexpected error: ".data = 'U' :: "nexpected error: ".data from by decide] at h2
    simp only [List.cons_append, List.cons.injEq] at h2
    exact absurd h2.1 (by decide)

/-- Witness for claim C5: a captions-disabled video yields exactly the
dedicated warning. -/
theorem get_transcript_c5_witness :
    get_transcript
        { get_transcript := fun _ _ => .error .transcriptsDisabled,
          list_transcripts := fun _ => .error .transcriptsDisabled }
        "vid123" ["ja", "en"] =
      { result := .ok none,
        events := [.svcDirectFetch "vid123" ["ja", "en"],
                   .uiWarning "Subtitles are disabled for this video."] } :=
  (get_transcript_c5
    { get_transcript := fun _ _ => .error .transcriptsDisabled,
      list_transcripts := fun _ => .error .transcriptsDisabled }
    "vid123" ["ja", "en"]).1 rfl

/-- Claim C8: a request whose input fails identifier resolution shows one
inline error and aborts — the filesystem is untouched and the trace is
that single message (no service call, no file saved, no download); a blank
input likewise aborts with the dedicated prompt before resolution. -/
theorem main_generate_c8 (svc : Service) (video_url : String) (fs : List String) :
    (pyStrip video_url = "" →
      main_generate svc video_url fs =
        (fs, [.uiError "Please enter a valid YouTube video URL."])) ∧
    (∀ m : String, pyStrip video_url ≠ "" →
      extract_video_id video_url = .error (.valueError m) →
      main_generate svc video_url fs = (fs, [.uiError m])) := by
  constructor
  · intro h; unfold main_generate; rw [if_pos h]
  · intro m h he; unfold main_generate; rw [if_neg h, he]

/-- Witness for claim C8: an unresolvable input aborts the request with
the wrapped resolver error and leaves the filesystem unchanged. -/
theorem main_generate_c8_witness :
    pyStrip "x" ≠ "" ∧
    extract_video_id "x" =
      .error (.valueError "Invalid YouTube URL: Invalid YouTube URL.") ∧
    main_generate demoSvcFallback "x" ["keep.docx"] =
      (["keep.docx"], [.uiError "Invalid YouTube URL: Invalid YouTube URL."]) :=
  ⟨by decide, by decide,
   (main_generate_c8 demoSvcFallback "x" ["keep.docx"]).2
     "Invalid YouTube URL: Invalid YouTube URL." (by decide) (by decide)⟩

/-- `get_transcript` never emits a download event. -/
theorem get_transcript_no_download (svc : Service) (video_id : String)
    (languages : List String) (fn : String) :
    Event.downloadButton fn ∉ (get_transcript svc video_id languages).events := by
  unfold get_transcript
  cases svc.get_transcript video_id languages with
  | ok t => simp
  | error e =>
    cases e with
    | noTranscriptFound => cases fallback_fetch svc video_id languages <;> simp
    | transcriptsDisabled => simp
    | otherError m => simp

/-- Every run of the handler either aborts with a download-free trace and
an unchanged filesystem, or reaches the success branch with a resolved
identifier and a nonempty transcript. -/
theorem main_generate_cases (svc : Service) (video_url : String) (fs : List String) :
    (∃ msgs : List Event, main_generate svc video_url fs = (fs, msgs) ∧
      ∀ fn, Event.downloadButton fn ∉ msgs) ∨
    (∃ video_id transcript,
      extract_video_id video_url = .ok video_id ∧
      transcript.isEmpty = false ∧
      (get_transcript svc video_id ["ja", "en"]).result = .ok (some transcript) ∧
      main_generate svc video_url fs =
        ((save_to_docx (format_transcript transcript)
            (video_id ++ "_transcript.docx") fs).2.filter
           (fun n => n != video_id ++ "_transcript.docx"),
         (get_transcript svc video_id ["ja", "en"]).events ++
          [.fileSave (video_id ++ "_transcript.docx") (format_transcript transcript),
           .fileOpen (video_id ++ "_transcript.docx"),
           .uiSuccess "✅ Transcript generated successfully!",
           .downloadButton (video_id ++ "_transcript.docx"),
           .fileRemove (video_id ++ "_transcript.docx")])) := by
  unfold main_generate
  split
  · exact Or.inl ⟨_, rfl, by simp⟩
  · split
    · exact Or.inl ⟨_, rfl, by simp⟩
    · exact Or.inl ⟨_, rfl, by simp⟩
    · split
      · refine Or.inl ⟨_, rfl, fun fn hmem => ?_⟩
        rcases List.mem_append.mp hmem with h2 | h2
        · exact absurd h2 (get_transcript_no_download _ _ _ _)
        · simp at h2
      · refine Or.inl ⟨_, rfl, fun fn hmem => ?_⟩
        rcases List.mem_append.mp hmem with h2 | h2
        · exact absurd h2 (get_transcript_no_download _ _ _ _)
        · simp at h2
      · split
        · refine Or.inl ⟨_, rfl, fun fn hmem => ?_⟩
          rcases List.mem_append.mp hmem with h2 | h2
          · exact absurd h2 (get_transcript_no_download _ _ _ _)
          · simp at h2
        · rename_i hne
          refine Or.inr ⟨_, _, by assumption, eq_false_of_ne_true hne, by assumption, rfl⟩

/-- Claim C9: whenever a request serves a download, the served file is the
`<video_id>_transcript.docx` temporary for the resolved identifier, a
delete of it is traced before the request completes, and it is absent from
the final filesystem. -/
theorem main_generate_c9 (svc : Service) (video_url : String) (fs : List String)
    (filename : String)
    (h : Event.downloadButton filename ∈ (main_generate svc video_url fs).2) :
    filename ∉ (main_generate svc video_url fs).1 ∧
    Event.fileRemove filename ∈ (main_generate svc video_url fs).2 ∧
    ∃ video_id, extract_video_id video_url = .ok video_id ∧
      filename = video_id ++ "_transcript.docx" := by
  rcases main_generate_cases svc video_url fs with ⟨msgs, hmg, hnd⟩ |
    ⟨video_id, transcript, hex, _, _, hmg⟩
  · rw [hmg] at h
    exact absurd h (hnd filename)
  · rw [hmg] at h ⊢
    have hfn : filename = video_id ++ "_transcript.docx" := by
      rcases List.mem_append.mp h with h2 | h2
      · exact absurd h2 (get_transcript_no_download _ _ _ _)
      · simp at h2
        exact h2
    subst hfn
    refine ⟨?_, ?_, ⟨video_id, hex, rfl⟩⟩
    · intro hmem
      rcases List.mem_filter.mp hmem with ⟨_, hpred⟩
      simp at hpred
    · exact List.mem_append.mpr (Or.inr (by simp))

/-- Witness for claim C9: a successful end-to-end request serves the
download and the temporary file is gone afterwards. -/
theorem main_generate_c9_witness :
    Event.downloadButton "dQw4w9WgXcQ_transcript.docx" ∈
      (main_generate demoSvcDirect "dQw4w9WgXcQ" []).2 ∧
    "dQw4w9WgXcQ_transcript.docx" ∉ (main_generate demoSvcDirect "dQw4w9WgXcQ" []).1 :=
  ⟨by decide,
   (main_generate_c9 demoSvcDirect "dQw4w9WgXcQ" [] "dQw4w9WgXcQ_transcript.docx"
     (by decide)).1⟩
